import Mathlib

/-!
Verification of the LS-8 virtual CPU (`cpu.py`).

The development shallowly embeds `cpu.py`: the `Memory` class becomes the
`Memory` structure with `read_byte` / `write_byte` returning `Except`
(Python exceptions become `Except.error`), the `CPU` class becomes the `CPU`
structure, every instruction handler becomes a function `CPU → Except PyErr …`,
and the `run` loop becomes a fuel-indexed loop `runLoop`.

Python integers are embedded as `Int`.  The bitwise operations `&`, `|`, `~`
on Python ints are `Int.land`, `Int.lor`, `Int.lnot` (two's-complement
semantics on unbounded integers, exactly as in Python).  `x >> k` on a
non-negative `x` is `x / 2^k`, which is how the three decode shifts are
rendered (their left operands are `land` with a non-negative mask, hence
non-negative).
-/

deriving instance DecidableEq for Except

/-- Python exception kinds raised by `cpu.py`:
`ReferenceError` is the spec's `OutOfBounds` and `TypeError` with message
"Data must be an 8-bit number" is the spec's `InvalidByteValue`.
`ValueError` is listed because the `except TypeError` clause in
`write_byte` catches only `TypeError` — any other exception kind raised by
`int(data)` passes through that handler uncaught. -/
inductive PyErr where
  | ReferenceError (msg : String)
  | TypeError (msg : String)
  | ValueError (msg : String)
deriving DecidableEq, Repr

/-- Universe of Python values modelled as the `data` argument of
`Memory.write_byte`: integers (the only kind the CPU itself ever passes),
floats, and `None` as a representative non-numeric value.  A float is
modelled by its truncation toward zero together with a flag recording
whether it had a non-zero fractional part — the only float observation the
code makes is `int(data)`, which truncates.  Strings are outside this
universe: modelling CPython's `int(str)` faithfully would require its full
Unicode digit and whitespace tables. -/
inductive PyVal where
  | int (n : Int)
  | float (ipart : Int) (hasFrac : Bool)
  | none
deriving DecidableEq, Repr

/-- CPython's `int(data)` builtin on the `PyVal` universe: the identity on
ints, truncation toward zero on floats, and `TypeError` on `None`. -/
def pyInt : PyVal → Except PyErr Int
  | .int n => .ok n
  | .float i _ => .ok i
  | .none => .error (.TypeError "int() argument must be a number, not NoneType")

/-- The `Memory` class: a fixed-size list of byte cells
(`self.size`, `self.internal_memory`). -/
structure Memory where
  size : Nat
  internal_memory : List Int
deriving DecidableEq, Repr

/-- Method `Memory.clear`: reset every cell to 0. -/
def Memory.clear (m : Memory) : Memory :=
  { m with internal_memory := List.replicate m.size 0 }

/-- Constructor `Memory.__init__(size)`: store the size and clear. -/
def Memory.init (size : Nat) : Memory :=
  Memory.clear { size := size, internal_memory := [] }

/-- Method `Memory.read_byte`: bounds-checked read.
`if address < 0 or address > self.size - 1: raise ReferenceError(...)`,
else return `self.internal_memory[address]`. -/
def Memory.read_byte (m : Memory) (address : Int) : Except PyErr Int :=
  if address < 0 ∨ address > (m.size : Int) - 1 then
    .error (.ReferenceError "Out of bounds memory reference")
  else
    .ok (m.internal_memory.getD address.toNat 0)

/-- Method `Memory.write_byte` on an arbitrary Python value: bounds check, then
`real_byte = int(data)` (a `TypeError` raised there — or by the subsequent
range checks — is caught by the `except TypeError` clause and re-raised as
`TypeError("Data must be an 8-bit number")`; any other exception
propagates), then the two range checks, then the store. -/
def Memory.write_byte_py (m : Memory) (address : Int) (data : PyVal) :
    Except PyErr Memory :=
  if address < 0 ∨ address > (m.size : Int) - 1 then
    .error (.ReferenceError "Out of bounds memory reference")
  else
    match pyInt data with
    | .error (.TypeError _) => .error (.TypeError "Data must be an 8-bit number")
    | .error e => .error e
    | .ok real_byte =>
      if 0xFF < real_byte then .error (.TypeError "Data must be an 8-bit number")
      else if real_byte < 0 then .error (.TypeError "Data must be an 8-bit number")
      else .ok { m with internal_memory := m.internal_memory.set address.toNat real_byte }

/-- Method `Memory.write_byte` specialised to the only value kind the CPU itself
ever passes: a Python int. -/
def Memory.write_byte (m : Memory) (address : Int) (data : Int) :
    Except PyErr Memory :=
  m.write_byte_py address (.int data)

/-- Observable side effects of execution: `print` calls made by `PRN` and by
the two unknown-opcode diagnostics (each diagnostic identifies the offending
opcode byte and the PC at which it was fetched). -/
inductive OutputEvent where
  | prn (value : Int)
  | unknownInstr (opcode pc : Int)
  | unknownALU (opcode pc : Int)
deriving DecidableEq, Repr

/-- The mutable state of the `CPU` class: main RAM (`Memory(256)`), the
register file (`Memory(8)`, register 7 = SP), the program counter, the
instruction register, and the flags byte. -/
structure CPU where
  ram : Memory
  gp_registers : Memory
  PC : Int
  IR : Int
  FL : Int
deriving DecidableEq, Repr

/-- Mask `FLAG_RUNNING = 0b10000000`. -/
def FLAG_RUNNING : Int := 128
/-- Mask `FLAG_LESS = 0b00000100`. -/
def FLAG_LESS : Int := 4
/-- Mask `FLAG_GREATER = 0b00000010`. -/
def FLAG_GREATER : Int := 2
/-- Mask `FLAG_EQUAL = 0b00000001`. -/
def FLAG_EQUAL : Int := 1

/-- Decode field `num_ops = (IR & 0b11000000) >> 6` (the `land` is
non-negative, so the Python right-shift is division by 64). -/
def num_ops (ir : Int) : Int := Int.land ir 192 / 64

/-- Decode field `use_alu = (IR & 0b00100000) >> 5`. -/
def use_alu (ir : Int) : Int := Int.land ir 32 / 32

/-- Decode field `sets_pc = (IR & 0b00010000) >> 4`. -/
def sets_pc (ir : Int) : Int := Int.land ir 16 / 16

/-- Decode field `insr_id = (IR & 0b00001111) >> 0`. -/
def insr_id (ir : Int) : Int := Int.land ir 15

/-- Method `CPU.get_SP`: read register 7. -/
def CPU.get_SP (s : CPU) : Except PyErr Int :=
  s.gp_registers.read_byte 7

/-- Method `CPU.set_SP`: write register 7. -/
def CPU.set_SP (s : CPU) (value : Int) : Except PyErr CPU :=
  match s.gp_registers.write_byte 7 value with
  | .error e => .error e
  | .ok regs => .ok { s with gp_registers := regs }

/-- Handler `CPU.HLT`: clear the RUNNING flag (`self.FL &= ~self.FLAG_RUNNING`).
This handler cannot fail. -/
def CPU.HLT (s : CPU) : CPU :=
  { s with FL := Int.land s.FL (Int.lnot FLAG_RUNNING) }

/-- Handler `CPU.LDI`: `reg_num = ram[PC+1]; reg_val = ram[PC+2];
gp_registers.write_byte(reg_num, reg_val)`. -/
def CPU.LDI (s : CPU) : Except PyErr CPU :=
  match s.ram.read_byte (s.PC + 1) with
  | .error e => .error e
  | .ok reg_num =>
    match s.ram.read_byte (s.PC + 2) with
    | .error e => .error e
    | .ok reg_val =>
      match s.gp_registers.write_byte reg_num reg_val with
      | .error e => .error e
      | .ok regs => .ok { s with gp_registers := regs }

/-- Handler `CPU.PRN`: `reg_num = ram[PC+1]; print(gp_registers.read_byte(reg_num))`. -/
def CPU.PRN (s : CPU) : Except PyErr (CPU × List OutputEvent) :=
  match s.ram.read_byte (s.PC + 1) with
  | .error e => .error e
  | .ok reg_num =>
    match s.gp_registers.read_byte reg_num with
    | .error e => .error e
    | .ok reg_val => .ok (s, [.prn reg_val])

/-- Handler `CPU.PUSH`: `set_SP(get_SP() - 1); reg_num = ram[PC+1];
data = gp_registers.read_byte(reg_num); ram.write_byte(get_SP(), data)`. -/
def CPU.PUSH (s : CPU) : Except PyErr CPU :=
  match s.get_SP with
  | .error e => .error e
  | .ok sp =>
    match s.set_SP (sp - 1) with
    | .error e => .error e
    | .ok s1 =>
      match s1.ram.read_byte (s1.PC + 1) with
      | .error e => .error e
      | .ok reg_num =>
        match s1.gp_registers.read_byte reg_num with
        | .error e => .error e
        | .ok data =>
          match s1.get_SP with
          | .error e => .error e
          | .ok sp2 =>
            match s1.ram.write_byte sp2 data with
            | .error e => .error e
            | .ok ram1 => .ok { s1 with ram := ram1 }

/-- Handler `CPU.POP`: `reg_num = ram[PC+1]; data = ram.read_byte(get_SP());
gp_registers.write_byte(reg_num, data); set_SP(get_SP() + 1)` — note the
second `get_SP()` call happens after the register write. -/
def CPU.POP (s : CPU) : Except PyErr CPU :=
  match s.ram.read_byte (s.PC + 1) with
  | .error e => .error e
  | .ok reg_num =>
    match s.get_SP with
    | .error e => .error e
    | .ok sp =>
      match s.ram.read_byte sp with
      | .error e => .error e
      | .ok data =>
        match s.gp_registers.write_byte reg_num data with
        | .error e => .error e
        | .ok regs =>
          match CPU.get_SP { s with gp_registers := regs } with
          | .error e => .error e
          | .ok sp2 => CPU.set_SP { s with gp_registers := regs } (sp2 + 1)

/-- Handler `CPU.JMP`: `reg_num = ram[PC+1]; PC = gp_registers.read_byte(reg_num)`. -/
def CPU.JMP (s : CPU) : Except PyErr CPU :=
  match s.ram.read_byte (s.PC + 1) with
  | .error e => .error e
  | .ok reg_num =>
    match s.gp_registers.read_byte reg_num with
    | .error e => .error e
    | .ok v => .ok { s with PC := v }

/-- Handler `CPU.JEQ`: if `FL & FLAG_EQUAL == FLAG_EQUAL` behave as JMP,
else `PC += 2`. -/
def CPU.JEQ (s : CPU) : Except PyErr CPU :=
  if Int.land s.FL FLAG_EQUAL = FLAG_EQUAL then s.JMP
  else .ok { s with PC := s.PC + 2 }

/-- Handler `CPU.JNE`: if `FL & FLAG_EQUAL == 0` behave as JMP, else `PC += 2`. -/
def CPU.JNE (s : CPU) : Except PyErr CPU :=
  if Int.land s.FL FLAG_EQUAL = 0 then s.JMP
  else .ok { s with PC := s.PC + 2 }

/-- Handler `CPU.MUL`: read both register values and write their product back to
`reg_a` through the range-checked register write. -/
def CPU.MUL (s : CPU) (reg_a reg_b : Int) : Except PyErr CPU :=
  match s.gp_registers.read_byte reg_a with
  | .error e => .error e
  | .ok reg_a_val =>
    match s.gp_registers.read_byte reg_b with
    | .error e => .error e
    | .ok reg_b_val =>
      match s.gp_registers.write_byte reg_a (reg_a_val * reg_b_val) with
      | .error e => .error e
      | .ok regs => .ok { s with gp_registers := regs }

/-- Handler `CPU.CMP`: read both register values, then set or clear each of
EQUAL, LESS, GREATER in turn by the corresponding comparison. -/
def CPU.CMP (s : CPU) (reg_a reg_b : Int) : Except PyErr CPU :=
  match s.gp_registers.read_byte reg_a with
  | .error e => .error e
  | .ok reg_a_val =>
    match s.gp_registers.read_byte reg_b with
    | .error e => .error e
    | .ok reg_b_val =>
      let fl1 := if reg_a_val = reg_b_val then Int.lor s.FL FLAG_EQUAL
                 else Int.land s.FL (Int.lnot FLAG_EQUAL)
      let fl2 := if reg_a_val < reg_b_val then Int.lor fl1 FLAG_LESS
                 else Int.land fl1 (Int.lnot FLAG_LESS)
      let fl3 := if reg_a_val > reg_b_val then Int.lor fl2 FLAG_GREATER
                 else Int.land fl2 (Int.lnot FLAG_GREATER)
      .ok { s with FL := fl3 }

/-- The zero-argument half of `self.dispatch_table` (the single Python dict
holds both arities; the run loop only ever looks an opcode up zero-argument
when its bit 5 is clear, and two-argument when bit 5 is set, so splitting
the table by arity preserves behaviour byte-for-byte). -/
def dispatch0 (op : Int) : Option (CPU → Except PyErr (CPU × List OutputEvent)) :=
  if op = 0x01 then some (fun s => .ok (s.HLT, []))
  else if op = 0x45 then some (fun s =>
    match s.PUSH with | .error e => .error e | .ok s1 => .ok (s1, []))
  else if op = 0x46 then some (fun s =>
    match s.POP with | .error e => .error e | .ok s1 => .ok (s1, []))
  else if op = 0x47 then some CPU.PRN
  else if op = 0x54 then some (fun s =>
    match s.JMP with | .error e => .error e | .ok s1 => .ok (s1, []))
  else if op = 0x55 then some (fun s =>
    match s.JNE with | .error e => .error e | .ok s1 => .ok (s1, []))
  else if op = 0x56 then some (fun s =>
    match s.JEQ with | .error e => .error e | .ok s1 => .ok (s1, []))
  else if op = 0x82 then some (fun s =>
    match s.LDI with | .error e => .error e | .ok s1 => .ok (s1, []))
  else none

/-- The two-argument (ALU) half of `self.dispatch_table`. -/
def dispatch2 (op : Int) : Option (CPU → Int → Int → Except PyErr CPU) :=
  if op = 0xA2 then some CPU.MUL
  else if op = 0xA7 then some CPU.CMP
  else none

/-- Method `CPU.alu`: look the current IR up in the dispatch table and call the
handler with the two register-number arguments; a `KeyError` (unmapped
opcode) is caught, reported, and answered by executing `HLT`. -/
def CPU.alu (s : CPU) (_op reg_a reg_b : Int) :
    Except PyErr (CPU × List OutputEvent) :=
  match dispatch2 s.IR with
  | some h =>
    match h s reg_a reg_b with
    | .error e => .error e
    | .ok s1 => .ok (s1, [])
  | Option.none => .ok (s.HLT, [.unknownALU s.IR s.PC])

/-- The execute step of one `run` iteration, after IR has been fetched:
if `use_alu` is truthy, read the two operand bytes and call `alu`;
otherwise call the zero-argument table entry, catching a `KeyError`
(unmapped opcode) by reporting it and executing `HLT`. -/
def execPhase (s : CPU) : Except PyErr (CPU × List OutputEvent) :=
  if use_alu s.IR ≠ 0 then
    match s.ram.read_byte (s.PC + 1) with
    | .error e => .error e
    | .ok a =>
      match s.ram.read_byte (s.PC + 2) with
      | .error e => .error e
      | .ok b => s.alu s.IR a b
  else
    match dispatch0 s.IR with
    | some h => h s
    | Option.none => .ok (s.HLT, [.unknownInstr s.IR s.PC])

/-- One iteration of the `while` body of `CPU.run`: fetch
(`IR = ram.read_byte(PC)`), decode, execute, and — when `sets_pc` is
falsy — advance `PC += 1 + num_ops`. -/
def cycle (s : CPU) : Except PyErr (CPU × List OutputEvent) :=
  match s.ram.read_byte s.PC with
  | .error e => .error e
  | .ok ir =>
    match execPhase { s with IR := ir } with
    | .error e => .error e
    | .ok (s2, out) =>
      if sets_pc ir = 0 then .ok ({ s2 with PC := s2.PC + (1 + num_ops ir) }, out)
      else .ok (s2, out)

/-- The `while self.FL & self.FLAG_RUNNING == self.FLAG_RUNNING` loop of
`CPU.run`, indexed by fuel.  `.ok none` means the fuel ran out with the
machine still running; `.ok (some …)` means the loop exited normally with
the final state and the concatenated output. -/
def runLoop : Nat → CPU → Except PyErr (Option (CPU × List OutputEvent))
  | 0, s =>
    if Int.land s.FL FLAG_RUNNING = FLAG_RUNNING then .ok Option.none
    else .ok (some (s, []))
  | fuel + 1, s =>
    if Int.land s.FL FLAG_RUNNING = FLAG_RUNNING then
      match cycle s with
      | .error e => .error e
      | .ok (s1, out) =>
        match runLoop fuel s1 with
        | .error e => .error e
        | .ok Option.none => .ok Option.none
        | .ok (some (s2, out2)) => .ok (some (s2, out ++ out2))
    else .ok (some (s, []))

/-- Method `CPU.run`: set the RUNNING flag (`self.FL |= self.FLAG_RUNNING`) and
enter the fetch/decode/execute loop. -/
def runFuel (fuel : Nat) (s : CPU) : Except PyErr (Option (CPU × List OutputEvent)) :=
  runLoop fuel { s with FL := Int.lor s.FL FLAG_RUNNING }

/-- Constructor `CPU.__init__`: 256 bytes of RAM, 8 registers with `R7 = 0xF4`,
`PC = IR = 0`, `FL = 0`. -/
def CPU.init : CPU :=
  { ram := Memory.init 256
    gp_registers :=
      match (Memory.init 8).write_byte 7 0xF4 with
      | .ok regs => regs
      | .error _ => Memory.init 8
    PC := 0
    IR := 0
    FL := 0 }

/-- The write loop inside `CPU.load`: `ram_write(address, data); address += 1`
for each parsed byte. -/
def loadFrom : CPU → Int → List Int → Except PyErr CPU
  | t, _, [] => .ok t
  | t, address, d :: rest =>
    match t.ram.write_byte address d with
    | .error e => .error e
    | .ok ram1 => loadFrom { t with ram := ram1 } (address + 1) rest

/-- Method `CPU.load`, applied to an already-parsed list of byte values: clear RAM
(`self.ram.clear()`) and write the values contiguously from address 0. -/
def CPU.loadBytes (s : CPU) (prog : List Int) : Except PyErr CPU :=
  loadFrom { s with ram := s.ram.clear } 0 prog

/-- Is this result the `OutOfBounds` error kind (Python `ReferenceError`)? -/
def isOutOfBoundsErr {α : Type} : Except PyErr α → Bool
  | .error (.ReferenceError _) => true
  | _ => false

/-- Is this result the `InvalidByteValue` error kind (the `TypeError` raised
by `Memory.write_byte`)? -/
def isInvalidByteErr {α : Type} : Except PyErr α → Bool
  | .error (.TypeError _) => true
  | _ => false

/-- The spec's stack round-trip program: `LDI R0,42; PUSH R0; POP R1`. -/
def stackProg : List Int := [0x82, 0, 42, 0x45, 0, 0x46, 1]

/-- RAM contents after loading `stackProg` into a cleared 256-byte memory. -/
def stackRam : Memory :=
  { size := 256
    internal_memory :=
      ((((((List.replicate 256 (0 : Int)).set 0 0x82).set 1 0).set 2 42).set 3
        0x45).set 4 0).set 5 0x46 |>.set 6 1 }

/-- Memory `stackRam` with 42 pushed at the top of the stack (address 0xF3). -/
def stackRamPushed : Memory :=
  { size := 256, internal_memory := stackRam.internal_memory.set 0xF3 42 }

/-- The machine state right after `CPU.init.loadBytes stackProg`. -/
def stackS0 : CPU :=
  { ram := stackRam
    gp_registers := { size := 8, internal_memory := [0, 0, 0, 0, 0, 0, 0, 0xF4] }
    PC := 0
    IR := 0
    FL := 0 }

/-- State `stackS0` with the RUNNING flag set (state on entering the run loop). -/
def stackR0 : CPU := { stackS0 with FL := 128 }

/-- After cycle 1 (`LDI R0,42`). -/
def stackS1 : CPU :=
  { ram := stackRam
    gp_registers := { size := 8, internal_memory := [42, 0, 0, 0, 0, 0, 0, 0xF4] }
    PC := 3
    IR := 0x82
    FL := 128 }

/-- After cycle 2 (`PUSH R0`): SP = 0xF3, 42 stored at 0xF3. -/
def stackS2 : CPU :=
  { ram := stackRamPushed
    gp_registers := { size := 8, internal_memory := [42, 0, 0, 0, 0, 0, 0, 0xF3] }
    PC := 5
    IR := 0x45
    FL := 128 }

/-- After cycle 3 (`POP R1`): R1 = 42, SP restored to 0xF4. -/
def stackS3 : CPU :=
  { ram := stackRamPushed
    gp_registers := { size := 8, internal_memory := [42, 42, 0, 0, 0, 0, 0, 0xF4] }
    PC := 7
    IR := 0x46
    FL := 128 }

/-- After cycle 4 (unmapped opcode 0 at PC 7: report and halt). -/
def stackS4 : CPU :=
  { ram := stackRamPushed
    gp_registers := { size := 8, internal_memory := [42, 42, 0, 0, 0, 0, 0, 0xF4] }
    PC := 8
    IR := 0
    FL := 0 }

/-- A running machine with `R0 = 99` and the EQUAL flag set (FL = 0x81),
for exercising `JEQ`/`JNE` at PC = 10 (operand byte `ram[11] = 0`). -/
def jeqCPU : CPU :=
  { ram := { size := 256, internal_memory := List.replicate 256 (0 : Int) }
    gp_registers := { size := 8, internal_memory := [99, 0, 0, 0, 0, 0, 0, 0xF4] }
    PC := 10
    IR := 0
    FL := 129 }

/-- A running machine with `R0 = 16, R1 = 16, R2 = 3, R3 = 7` for exercising
`MUL` overflow (16*16 = 256) and success (3*7 = 21). -/
def mulCPU : CPU :=
  { ram := { size := 256, internal_memory := List.replicate 256 (0 : Int) }
    gp_registers := { size := 8, internal_memory := [16, 16, 3, 7, 0, 0, 0, 0xF4] }
    PC := 0
    IR := 0
    FL := 128 }

/-- A machine that reaches PC = 255 via `LDI R0,255; JMP R0` with the
unmapped ALU-bit opcode `0x25` placed at address 255. -/
def aluEdgeCPU : Option CPU :=
  match CPU.init.loadBytes [0x82, 0, 255, 0x54, 0] with
  | .error _ => Option.none
  | .ok s0 =>
    match s0.ram.write_byte 255 0x25 with
    | .error _ => Option.none
    | .ok r => some { s0 with ram := r }

/-- A running machine whose stack pointer is 0 (all registers zero). -/
def spZeroCPU : CPU :=
  { ram := Memory.init 256
    gp_registers := Memory.init 8
    PC := 0
    IR := 0
    FL := 128 }

/-- A running machine whose RAM holds the single instruction `LDI R0,42`
at address 0. -/
def ldiStepCPU : CPU :=
  { ram := { size := 256
             internal_memory := ((List.replicate 256 (0 : Int)).set 0 0x82).set 2 42 }
    gp_registers := Memory.init 8
    PC := 0
    IR := 0
    FL := 128 }

/-- The state `ldiStepCPU` reaches after one cycle: `R0 = 42`, `IR = 0x82`,
PC advanced by 3. -/
def ldiStepCPUAfter : CPU :=
  { ram := ldiStepCPU.ram
    gp_registers := { size := 8, internal_memory := [42, 0, 0, 0, 0, 0, 0, 0] }
    PC := 3
    IR := 0x82
    FL := 128 }

/-- A running machine with `R0 = 42`, SP = 0xF4, and RAM holding operand
bytes `ram[1] = 0` (PUSH target R0) and `ram[3] = 1` (POP target R1). -/
def pushPopCPU : CPU :=
  { ram := { size := 256, internal_memory := (List.replicate 256 (0 : Int)).set 3 1 }
    gp_registers := { size := 8, internal_memory := [42, 0, 0, 0, 0, 0, 0, 0xF4] }
    PC := 0
    IR := 0
    FL := 128 }

/-- A running machine about to `POP` into register 7: `ram[1] = 7` (operand
byte), SP = 0xF3, and the byte 9 stored at the top of stack (address 0xF3). -/
def popIntoSPCPU : CPU :=
  { ram := { size := 256
             internal_memory := ((List.replicate 256 (0 : Int)).set 1 7).set 0xF3 9 }
    gp_registers := { size := 8, internal_memory := [0, 0, 0, 0, 0, 0, 0, 0xF3] }
    PC := 0
    IR := 0
    FL := 128 }

/-- A running machine with registers `R0 = 5, R1 = 5, R2 = 3, R3 = 7, R4 = 2`
for exercising `CMP`, `JEQ`, `JNE`, and `MUL` at concrete inputs. -/
def cmpCPU : CPU :=
  { ram := { size := 256, internal_memory := List.replicate 256 (0 : Int) }
    gp_registers := { size := 8, internal_memory := [5, 5, 3, 7, 2, 0, 0, 0xF4] }
    PC := 0
    IR := 0
    FL := 128 }

/-- A running machine with SP = 255 and `ram[1] = 0` (POP operand byte R0),
for exercising `POP` when the SP increment would leave byte range. -/
def spTopCPU : CPU :=
  { ram := { size := 256, internal_memory := List.replicate 256 (0 : Int) }
    gp_registers := { size := 8, internal_memory := [0, 0, 0, 0, 0, 0, 0, 255] }
    PC := 0
    IR := 0
    FL := 128 }

/-! ### List helpers -/

/-- Reading back the cell just written. -/
theorem listGetD_set_self (l : List Int) (n : Nat) (v : Int) (h : n < l.length) :
    (l.set n v).getD n 0 = v := by
  induction l generalizing n with
  | nil => simp at h
  | cons a t ih =>
    cases n with
    | zero => rfl
    | succ k =>
      simp only [List.set, List.getD_cons_succ]
      exact ih k (by simpa using h)

/-- Writing one cell leaves every other cell unchanged. -/
theorem listGetD_set_ne (l : List Int) (m n : Nat) (v : Int) (h : m ≠ n) :
    (l.set m v).getD n 0 = l.getD n 0 := by
  induction l generalizing m n with
  | nil => rfl
  | cons a t ih =>
    cases m with
    | zero =>
      cases n with
      | zero => exact absurd rfl h
      | succ k => rfl
    | succ j =>
      cases n with
      | zero => rfl
      | succ k =>
        simp only [List.set, List.getD_cons_succ]
        exact ih j k (by omega)

/-! ### Memory lemmas -/

/-- Unfolding of the int-specialised `write_byte`. -/
theorem Memory.write_byte_eq (m : Memory) (address data : Int) :
    m.write_byte address data =
      if address < 0 ∨ address > (m.size : Int) - 1 then
        .error (.ReferenceError "Out of bounds memory reference")
      else if 0xFF < data then .error (.TypeError "Data must be an 8-bit number")
      else if data < 0 then .error (.TypeError "Data must be an 8-bit number")
      else .ok { m with internal_memory := m.internal_memory.set address.toNat data } := by
  rfl

/-- A successful read means the address was in bounds. -/
theorem Memory.read_byte_ok_bounds (m : Memory) (a v : Int)
    (h : m.read_byte a = .ok v) : 0 ≤ a ∧ a < (m.size : Int) := by
  unfold Memory.read_byte at h
  split at h
  · exact absurd h (by simp)
  · next hcond => constructor <;> omega

/-- A successful read returns the stored cell. -/
theorem Memory.read_byte_ok_val (m : Memory) (a v : Int)
    (h : m.read_byte a = .ok v) : v = m.internal_memory.getD a.toNat 0 := by
  unfold Memory.read_byte at h
  split at h
  · exact absurd h (by simp)
  · injection h with h; exact h.symm

/-- An in-bounds read succeeds. -/
theorem Memory.read_byte_ok_of (m : Memory) (a : Int)
    (h0 : 0 ≤ a) (h1 : a < (m.size : Int)) :
    m.read_byte a = .ok (m.internal_memory.getD a.toNat 0) := by
  unfold Memory.read_byte
  rw [if_neg (by omega)]

/-- An in-bounds, in-range write succeeds and stores the value. -/
theorem Memory.write_byte_ok_of (m : Memory) (a d : Int)
    (h0 : 0 ≤ a) (h1 : a < (m.size : Int)) (h2 : 0 ≤ d) (h3 : d ≤ 255) :
    m.write_byte a d =
      .ok { m with internal_memory := m.internal_memory.set a.toNat d } := by
  rw [Memory.write_byte_eq, if_neg (by omega), if_neg (by omega), if_neg (by omega)]

/-- Inversion of a successful write. -/
theorem Memory.write_byte_ok_inv (m m' : Memory) (a d : Int)
    (h : m.write_byte a d = .ok m') :
    0 ≤ a ∧ a < (m.size : Int) ∧ 0 ≤ d ∧ d ≤ 255 ∧
      m' = { m with internal_memory := m.internal_memory.set a.toNat d } := by
  rw [Memory.write_byte_eq] at h
  split at h
  · exact absurd h (by simp)
  · split at h
    · exact absurd h (by simp)
    · split at h
      · exact absurd h (by simp)
      · next h1 h2 h3 =>
        injection h with h
        exact ⟨by omega, by omega, by omega, by omega, h.symm⟩

/-- A write preserves the size and the backing-list length. -/
theorem Memory.write_byte_ok_size (m m' : Memory) (a d : Int)
    (h : m.write_byte a d = .ok m') :
    m'.size = m.size ∧ m'.internal_memory.length = m.internal_memory.length := by
  obtain ⟨-, -, -, -, h5⟩ := Memory.write_byte_ok_inv m m' a d h
  subst h5
  exact ⟨rfl, by simp⟩

/-- Read-after-write at the written address. -/
theorem Memory.write_then_read_self (m m' : Memory) (a d : Int)
    (hlen : m.internal_memory.length = m.size)
    (h : m.write_byte a d = .ok m') : m'.read_byte a = .ok d := by
  obtain ⟨h1, h2, h3, h4, h5⟩ := Memory.write_byte_ok_inv m m' a d h
  subst h5
  rw [Memory.read_byte_ok_of _ _ h1 (by simpa using h2)]
  have ha : a.toNat < m.internal_memory.length := by omega
  simp only [listGetD_set_self _ _ _ ha]

/-- Read-after-write at any other address. -/
theorem Memory.write_then_read_other (m m' : Memory) (a d b : Int)
    (h : m.write_byte a d = .ok m') (hb : 0 ≤ b) (hab : a ≠ b) :
    m'.read_byte b = m.read_byte b := by
  obtain ⟨h1, h2, h3, h4, h5⟩ := Memory.write_byte_ok_inv m m' a d h
  subst h5
  unfold Memory.read_byte
  simp only
  split
  · rfl
  · rw [listGetD_set_ne _ _ _ _ (by omega)]

/-! ### Flag-byte bitwise arithmetic

The flags register only ever meets `Int.lor`, `Int.land`, `Int.lnot` with the
four single-bit masks.  On `[0, 256)` these operations coincide with simple
`%`-arithmetic; the lemmas below state those identities so that `omega` can
finish the flag proofs.  `Int.land x (Int.lnot m)` computes via `Nat.ldiff`,
which the kernel cannot evaluate, so it is first converted to a `Nat.land`
with the complemented 8-bit mask by bit extensionality. -/

/-- For an 8-bit `n`, clearing the bits of `m` is the same as `and`-ing with
a mask `M` that agrees with `m`'s complement on the low 8 bits. -/
theorem natLdiff_eq_land (n m M : Nat) (hn : n < 256)
    (hbits : ∀ i : Nat, i < 8 → M.testBit i = !(m.testBit i)) :
    Nat.ldiff n m = n &&& M := by
  apply Nat.eq_of_testBit_eq
  intro i
  rw [Nat.testBit_ldiff, Nat.testBit_land]
  by_cases hi : i < 8
  · rw [hbits i hi]
  · have hpow : n < 2 ^ i := by
      calc n < 256 := hn
      _ = 2 ^ 8 := rfl
      _ ≤ 2 ^ i := Nat.pow_le_pow_right (by omega) (by omega)
    simp [Nat.testBit_eq_false_of_lt hpow]

/-- Computation rule: `Int.land ↑n (Int.lnot ↑m)` is `Nat.ldiff n m` (by computation on the
constructors). -/
theorem intLand_lnot_eq_ldiff (n m : Nat) :
    Int.land (n : Int) (Int.lnot (m : Int)) = ((Nat.ldiff n m : Nat) : Int) := rfl

set_option maxRecDepth 8192 in
theorem landMask254Nat : ∀ n : Nat, n < 256 →
    ((n &&& 254 : Nat) : Int) = (n : Int) - (n : Int) % 2 := by decide

set_option maxRecDepth 8192 in
theorem landMask251Nat : ∀ n : Nat, n < 256 →
    ((n &&& 251 : Nat) : Int) = (n : Int) - (n : Int) % 8 + (n : Int) % 4 := by decide

set_option maxRecDepth 8192 in
theorem landMask253Nat : ∀ n : Nat, n < 256 →
    ((n &&& 253 : Nat) : Int) = (n : Int) - (n : Int) % 4 + (n : Int) % 2 := by decide

set_option maxRecDepth 8192 in
theorem landMask127Nat : ∀ n : Nat, n < 256 →
    ((n &&& 127 : Nat) : Int) = (n : Int) % 128 := by decide

set_option maxRecDepth 8192 in
theorem lorReadNat : ∀ n : Nat, n < 256 →
    Int.lor (n : Int) 1 = (n : Int) - (n : Int) % 2 + 1 ∧
    Int.lor (n : Int) 4 = (n : Int) - (n : Int) % 8 + (n : Int) % 4 + 4 ∧
    Int.lor (n : Int) 2 = (n : Int) - (n : Int) % 4 + (n : Int) % 2 + 2 ∧
    Int.lor (n : Int) 128 = (n : Int) % 128 + 128 ∧
    Int.land (n : Int) 1 = (n : Int) % 2 ∧
    Int.land (n : Int) 4 = (n : Int) % 8 - (n : Int) % 4 ∧
    Int.land (n : Int) 2 = (n : Int) % 4 - (n : Int) % 2 ∧
    Int.land (n : Int) 128 = (n : Int) - (n : Int) % 128 := by decide

/-- All `Int.lor`/`Int.land` flag identities on `[0, 256)`, in
`omega`-friendly `%`-arithmetic form. -/
theorem flagOps (x : Int) (h0 : 0 ≤ x) (h1 : x < 256) :
    Int.lor x 1 = x - x % 2 + 1 ∧
    Int.land x (Int.lnot 1) = x - x % 2 ∧
    Int.lor x 4 = x - x % 8 + x % 4 + 4 ∧
    Int.land x (Int.lnot 4) = x - x % 8 + x % 4 ∧
    Int.lor x 2 = x - x % 4 + x % 2 + 2 ∧
    Int.land x (Int.lnot 2) = x - x % 4 + x % 2 ∧
    Int.land x 1 = x % 2 ∧
    Int.land x 4 = x % 8 - x % 4 ∧
    Int.land x 2 = x % 4 - x % 2 ∧
    Int.land x 128 = x - x % 128 ∧
    Int.lor x 128 = x % 128 + 128 ∧
    Int.land x (Int.lnot 128) = x % 128 := by
  have hx : x = ((x.toNat : Nat) : Int) := by omega
  have hn : x.toNat < 256 := by omega
  obtain ⟨l1, l4, l2, l128, a1, a4, a2, a128⟩ := lorReadNat x.toNat hn
  have e1 : Int.land ((x.toNat : Nat) : Int) (Int.lnot 1) =
      ((Nat.ldiff x.toNat 1 : Nat) : Int) := rfl
  have e4 : Int.land ((x.toNat : Nat) : Int) (Int.lnot 4) =
      ((Nat.ldiff x.toNat 4 : Nat) : Int) := rfl
  have e2 : Int.land ((x.toNat : Nat) : Int) (Int.lnot 2) =
      ((Nat.ldiff x.toNat 2 : Nat) : Int) := rfl
  have e128 : Int.land ((x.toNat : Nat) : Int) (Int.lnot 128) =
      ((Nat.ldiff x.toNat 128 : Nat) : Int) := rfl
  have c1 : Int.land x (Int.lnot 1) = x - x % 2 := by
    rw [hx, e1, natLdiff_eq_land x.toNat 1 254 hn (by decide), landMask254Nat x.toNat hn]
  have c4 : Int.land x (Int.lnot 4) = x - x % 8 + x % 4 := by
    rw [hx, e4, natLdiff_eq_land x.toNat 4 251 hn (by decide), landMask251Nat x.toNat hn]
  have c2 : Int.land x (Int.lnot 2) = x - x % 4 + x % 2 := by
    rw [hx, e2, natLdiff_eq_land x.toNat 2 253 hn (by decide), landMask253Nat x.toNat hn]
  have c128 : Int.land x (Int.lnot 128) = x % 128 := by
    rw [hx, e128, natLdiff_eq_land x.toNat 128 127 hn (by decide), landMask127Nat x.toNat hn]
  refine ⟨?_, c1, ?_, c4, ?_, c2, ?_, ?_, ?_, ?_, ?_, c128⟩ <;>
    rw [hx] <;> assumption

/-! ### Handler state-preservation lemmas -/

/-- Method `set_SP` only touches the register file. -/
theorem CPU.set_SP_pres (s t : CPU) (v : Int) (h : s.set_SP v = .ok t) :
    t.ram = s.ram ∧ t.PC = s.PC ∧ t.IR = s.IR ∧ t.FL = s.FL := by
  unfold CPU.set_SP at h
  split at h
  · exact absurd h (by simp)
  · injection h with h; subst h; exact ⟨rfl, rfl, rfl, rfl⟩

/-- Handler `LDI` only touches the register file. -/
theorem CPU.LDI_pres (s s1 : CPU) (h : s.LDI = .ok s1) :
    s1.ram = s.ram ∧ s1.PC = s.PC ∧ s1.IR = s.IR ∧ s1.FL = s.FL := by
  unfold CPU.LDI at h
  repeat' split at h
  all_goals first | exact Except.noConfusion h | injection h with h
  all_goals subst h
  exact ⟨rfl, rfl, rfl, rfl⟩

/-- Handler `PRN` does not change the machine state at all. -/
theorem CPU.PRN_pres (s s1 : CPU) (out : List OutputEvent)
    (h : s.PRN = .ok (s1, out)) : s1 = s := by
  unfold CPU.PRN at h
  repeat' split at h
  all_goals first | exact Except.noConfusion h | injection h with h
  exact (congrArg Prod.fst h).symm

/-- Handler `PUSH` never changes PC, IR, or FL. -/
theorem CPU.PUSH_pres (s s1 : CPU) (h : s.PUSH = .ok s1) :
    s1.PC = s.PC ∧ s1.IR = s.IR ∧ s1.FL = s.FL := by
  unfold CPU.PUSH at h
  repeat' split at h
  all_goals first | exact Except.noConfusion h | injection h with h
  rename_i x5 sp hsp x4 t hset x3 rn hrn x2 d hd x1 sp2 hsp2 x0 ram1 hw
  subst h
  obtain ⟨-, hPC, hIR, hFL⟩ := CPU.set_SP_pres s t (sp - 1) hset
  exact ⟨hPC, hIR, hFL⟩

/-- Handler `POP` never changes PC, IR, or FL. -/
theorem CPU.POP_pres (s s1 : CPU) (h : s.POP = .ok s1) :
    s1.PC = s.PC ∧ s1.IR = s.IR ∧ s1.FL = s.FL := by
  unfold CPU.POP at h
  repeat' split at h
  all_goals try exact absurd h (by simp only [reduceCtorEq, not_false_eq_true])
  rename_i x4 rn hrn x3 sp hsp x2 d hd x1 regs hregs x0 sp2 hsp2
  obtain ⟨-, hPC, hIR, hFL⟩ :=
    CPU.set_SP_pres { s with gp_registers := regs } s1 (sp2 + 1) h
  exact ⟨hPC, hIR, hFL⟩

/-- Handler `JMP` changes only PC. -/
theorem CPU.JMP_pres (s s1 : CPU) (h : s.JMP = .ok s1) :
    s1.ram = s.ram ∧ s1.gp_registers = s.gp_registers ∧
      s1.IR = s.IR ∧ s1.FL = s.FL := by
  unfold CPU.JMP at h
  repeat' split at h
  all_goals first | exact Except.noConfusion h | injection h with h
  all_goals subst h
  exact ⟨rfl, rfl, rfl, rfl⟩

/-- Handler `JEQ` changes only PC. -/
theorem CPU.JEQ_pres (s s1 : CPU) (h : s.JEQ = .ok s1) :
    s1.ram = s.ram ∧ s1.gp_registers = s.gp_registers ∧
      s1.IR = s.IR ∧ s1.FL = s.FL := by
  unfold CPU.JEQ at h
  split at h
  · exact CPU.JMP_pres s s1 h
  · injection h with h; subst h; exact ⟨rfl, rfl, rfl, rfl⟩

/-- Handler `JNE` changes only PC. -/
theorem CPU.JNE_pres (s s1 : CPU) (h : s.JNE = .ok s1) :
    s1.ram = s.ram ∧ s1.gp_registers = s.gp_registers ∧
      s1.IR = s.IR ∧ s1.FL = s.FL := by
  unfold CPU.JNE at h
  split at h
  · exact CPU.JMP_pres s s1 h
  · injection h with h; subst h; exact ⟨rfl, rfl, rfl, rfl⟩

/-- Handler `MUL` only touches the register file. -/
theorem CPU.MUL_pres (s s1 : CPU) (a b : Int) (h : s.MUL a b = .ok s1) :
    s1.ram = s.ram ∧ s1.PC = s.PC ∧ s1.IR = s.IR ∧ s1.FL = s.FL := by
  unfold CPU.MUL at h
  repeat' split at h
  all_goals first | exact Except.noConfusion h | injection h with h
  all_goals subst h
  exact ⟨rfl, rfl, rfl, rfl⟩

/-- Handler `CMP` only touches the flags register. -/
theorem CPU.CMP_pres (s s1 : CPU) (a b : Int) (h : s.CMP a b = .ok s1) :
    s1.ram = s.ram ∧ s1.gp_registers = s.gp_registers ∧
      s1.PC = s.PC ∧ s1.IR = s.IR := by
  unfold CPU.CMP at h
  repeat' split at h
  all_goals first | exact Except.noConfusion h | injection h with h
  all_goals subst h
  all_goals exact ⟨rfl, rfl, rfl, rfl⟩

/-- The only entries of the ALU half of the dispatch table are MUL and CMP. -/
theorem dispatch2_inv (op : Int) (f : CPU → Int → Int → Except PyErr CPU)
    (h : dispatch2 op = some f) : f = CPU.MUL ∨ f = CPU.CMP := by
  unfold dispatch2 at h
  split at h
  · exact Or.inl (Option.some.inj h).symm
  · split at h
    · exact Or.inr (Option.some.inj h).symm
    · exact absurd h (by simp)

/-- Method `alu` (dispatch of MUL/CMP, or report-and-halt) never changes PC or IR. -/
theorem CPU.alu_pres (s s1 : CPU) (op a b : Int) (out : List OutputEvent)
    (h : s.alu op a b = .ok (s1, out)) : s1.PC = s.PC ∧ s1.IR = s.IR := by
  unfold CPU.alu at h
  split at h
  · rename_i f hf
    split at h
    · exact absurd h (by simp)
    · rename_i t ht
      injection h with h
      injection h with h1 h2
      subst h1
      rcases dispatch2_inv s.IR f hf with rfl | rfl
      · obtain ⟨-, hPC, hIR, -⟩ := CPU.MUL_pres s t a b ht
        exact ⟨hPC, hIR⟩
      · obtain ⟨-, -, hPC, hIR⟩ := CPU.CMP_pres s t a b ht
        exact ⟨hPC, hIR⟩
  · injection h with h
    injection h with h1 h2
    subst h1
    exact ⟨rfl, rfl⟩

/-- Enumeration of the zero-argument half of the dispatch table. -/
theorem dispatch0_inv (op : Int) (f : CPU → Except PyErr (CPU × List OutputEvent))
    (h : dispatch0 op = some f) :
    (op = 0x01 ∧ f = fun s => .ok (s.HLT, [])) ∨
    (op = 0x45 ∧ f = fun s =>
      match s.PUSH with | .error e => .error e | .ok s1 => .ok (s1, [])) ∨
    (op = 0x46 ∧ f = fun s =>
      match s.POP with | .error e => .error e | .ok s1 => .ok (s1, [])) ∨
    (op = 0x47 ∧ f = CPU.PRN) ∨
    (op = 0x54 ∧ f = fun s =>
      match s.JMP with | .error e => .error e | .ok s1 => .ok (s1, [])) ∨
    (op = 0x55 ∧ f = fun s =>
      match s.JNE with | .error e => .error e | .ok s1 => .ok (s1, [])) ∨
    (op = 0x56 ∧ f = fun s =>
      match s.JEQ with | .error e => .error e | .ok s1 => .ok (s1, [])) ∨
    (op = 0x82 ∧ f = fun s =>
      match s.LDI with | .error e => .error e | .ok s1 => .ok (s1, [])) := by
  unfold dispatch0 at h
  repeat' split at h
  all_goals first
  | exact Option.noConfusion h
  | exact Or.inl ⟨by assumption, (Option.some.inj h).symm⟩
  | exact Or.inr (Or.inl ⟨by assumption, (Option.some.inj h).symm⟩)
  | exact Or.inr (Or.inr (Or.inl ⟨by assumption, (Option.some.inj h).symm⟩))
  | exact Or.inr (Or.inr (Or.inr (Or.inl ⟨by assumption, (Option.some.inj h).symm⟩)))
  | exact Or.inr (Or.inr (Or.inr (Or.inr (Or.inl
      ⟨by assumption, (Option.some.inj h).symm⟩))))
  | exact Or.inr (Or.inr (Or.inr (Or.inr (Or.inr (Or.inl
      ⟨by assumption, (Option.some.inj h).symm⟩)))))
  | exact Or.inr (Or.inr (Or.inr (Or.inr (Or.inr (Or.inr (Or.inl
      ⟨by assumption, (Option.some.inj h).symm⟩))))))
  | exact Or.inr (Or.inr (Or.inr (Or.inr (Or.inr (Or.inr (Or.inr
      ⟨by assumption, (Option.some.inj h).symm⟩))))))

/-- The execute phase always preserves IR, and preserves PC whenever the
executed opcode's `sets_pc` bit is clear. -/
theorem execPhase_pres (s s1 : CPU) (out : List OutputEvent)
    (h : execPhase s = .ok (s1, out)) :
    s1.IR = s.IR ∧ (sets_pc s.IR = 0 → s1.PC = s.PC) := by
  unfold execPhase at h
  split at h
  · repeat' split at h
    all_goals try exact Except.noConfusion h
    obtain ⟨hPC, hIR⟩ := CPU.alu_pres s s1 s.IR _ _ out h
    exact ⟨hIR, fun _ => hPC⟩
  · split at h
    · rename_i f hf
      rcases dispatch0_inv s.IR f hf with
        ⟨hop, rfl⟩ | ⟨hop, rfl⟩ | ⟨hop, rfl⟩ | ⟨hop, rfl⟩ |
        ⟨hop, rfl⟩ | ⟨hop, rfl⟩ | ⟨hop, rfl⟩ | ⟨hop, rfl⟩
      · injection h with h
        injection h with h1 h2
        subst h1
        exact ⟨rfl, fun _ => rfl⟩
      · dsimp only at h
        split at h
        · exact Except.noConfusion h
        · rename_i t ht
          injection h with h
          injection h with h1 h2
          subst h1
          obtain ⟨hPC, hIR, -⟩ := CPU.PUSH_pres s t ht
          exact ⟨hIR, fun _ => hPC⟩
      · dsimp only at h
        split at h
        · exact Except.noConfusion h
        · rename_i t ht
          injection h with h
          injection h with h1 h2
          subst h1
          obtain ⟨hPC, hIR, -⟩ := CPU.POP_pres s t ht
          exact ⟨hIR, fun _ => hPC⟩
      · have ht := CPU.PRN_pres s s1 out h
        subst ht
        exact ⟨rfl, fun _ => rfl⟩
      · dsimp only at h
        split at h
        · exact Except.noConfusion h
        · rename_i t ht
          injection h with h
          injection h with h1 h2
          subst h1
          obtain ⟨-, -, hIR, -⟩ := CPU.JMP_pres s t ht
          refine ⟨hIR, fun hpc => ?_⟩
          rw [hop] at hpc
          exact absurd hpc (by decide)
      · dsimp only at h
        split at h
        · exact Except.noConfusion h
        · rename_i t ht
          injection h with h
          injection h with h1 h2
          subst h1
          obtain ⟨-, -, hIR, -⟩ := CPU.JNE_pres s t ht
          refine ⟨hIR, fun hpc => ?_⟩
          rw [hop] at hpc
          exact absurd hpc (by decide)
      · dsimp only at h
        split at h
        · exact Except.noConfusion h
        · rename_i t ht
          injection h with h
          injection h with h1 h2
          subst h1
          obtain ⟨-, -, hIR, -⟩ := CPU.JEQ_pres s t ht
          refine ⟨hIR, fun hpc => ?_⟩
          rw [hop] at hpc
          exact absurd hpc (by decide)
      · dsimp only at h
        split at h
        · exact Except.noConfusion h
        · rename_i t ht
          injection h with h
          injection h with h1 h2
          subst h1
          obtain ⟨-, hPC, hIR, -⟩ := CPU.LDI_pres s t ht
          exact ⟨hIR, fun _ => hPC⟩
    · injection h with h
      injection h with h1 h2
      subst h1
      exact ⟨rfl, fun _ => rfl⟩

/-- A cycle whose fetch returns `c` is the execute phase on the state with
`IR := c`, followed by the conditional automatic advance. -/
theorem cycle_ok_fetch (s : CPU) (c : Int) (hc : s.ram.read_byte s.PC = .ok c) :
    cycle s =
      match execPhase { s with IR := c } with
      | .error e => .error e
      | .ok (s2, out) =>
        if sets_pc c = 0 then .ok ({ s2 with PC := s2.PC + (1 + num_ops c) }, out)
        else .ok (s2, out) := by
  unfold cycle
  rw [hc]

/-- Executing an unmapped non-ALU opcode reports it and runs `HLT`. -/
theorem execPhase_unknown_nonalu (s : CPU) (h0 : dispatch0 s.IR = none)
    (halu : use_alu s.IR = 0) :
    execPhase s = .ok (s.HLT, [.unknownInstr s.IR s.PC]) := by
  unfold execPhase
  rw [if_neg (not_not_intro halu), h0]

/-- Executing an unmapped ALU-bit opcode (with both operand fetches in
bounds) reports it and runs `HLT`. -/
theorem execPhase_unknown_alu (s : CPU) (v1 v2 : Int)
    (h2 : dispatch2 s.IR = none) (halu : use_alu s.IR ≠ 0)
    (hr1 : s.ram.read_byte (s.PC + 1) = .ok v1)
    (hr2 : s.ram.read_byte (s.PC + 2) = .ok v2) :
    execPhase s = .ok (s.HLT, [.unknownALU s.IR s.PC]) := by
  unfold execPhase
  rw [if_pos halu, hr1, hr2]
  unfold CPU.alu
  rw [h2]

/-- The run loop returns immediately on a non-running machine. -/
theorem runLoop_halted (fuel : Nat) (s : CPU)
    (h : ¬ Int.land s.FL FLAG_RUNNING = FLAG_RUNNING) :
    runLoop fuel s = .ok (some (s, [])) := by
  cases fuel <;> simp only [runLoop] <;> rw [if_neg h]

/-- Clearing the RUNNING bit of a byte leaves a value whose RUNNING bit
tests to zero. -/
theorem land_lnot128_not_running (x : Int) (h0 : 0 ≤ x) (h1 : x < 256) :
    Int.land (Int.land x (Int.lnot FLAG_RUNNING)) FLAG_RUNNING = 0 := by
  show Int.land (Int.land x (Int.lnot 128)) 128 = 0
  obtain ⟨-, -, -, -, -, -, -, -, -, -, -, f12⟩ := flagOps x h0 h1
  rw [f12]
  obtain ⟨-, -, -, -, -, -, -, -, -, g10, -, -⟩ :=
    flagOps (x % 128) (by omega) (by omega)
  rw [g10]
  omega

/-- C1: in every execution cycle of `run()`, IR is set to `memory[PC]`;
after the handler executes, if the decoded `sets_pc` bit of IR is 0 then PC
equals the old PC + 1 + operand count (`(IR >> 6) & 0b11`), and if
`sets_pc` is 1 the loop performs no automatic advance — the new PC is
exactly whatever the execute phase left. -/
theorem claim_C1 (s s1 : CPU) (out : List OutputEvent) (c : Int)
    (hc : s.ram.read_byte s.PC = .ok c)
    (h : cycle s = .ok (s1, out)) :
    s1.IR = c ∧
    (sets_pc c = 0 → s1.PC = s.PC + 1 + num_ops c) ∧
    (sets_pc c = 1 → ∃ t, execPhase { s with IR := c } = .ok (t, out) ∧
      s1.PC = t.PC) := by
  rw [cycle_ok_fetch s c hc] at h
  split at h
  · exact Except.noConfusion h
  · rename_i r t out2 heq
    split at h
    · rename_i hsp
      injection h with h
      injection h with h1 h2
      subst h1
      subst h2
      obtain ⟨hIR, hPC⟩ := execPhase_pres _ _ _ heq
      refine ⟨hIR, fun _ => ?_, fun h1 => absurd hsp (by omega)⟩
      have := hPC hsp
      simp only [this]
      omega
    · rename_i hsp
      injection h with h
      injection h with h1 h2
      subst h1
      subst h2
      obtain ⟨hIR, -⟩ := execPhase_pres _ _ _ heq
      exact ⟨hIR, fun h0 => absurd h0 hsp, fun _ => ⟨_, heq, rfl⟩⟩

set_option maxRecDepth 60000 in
/-- Witness for C1 at a concrete cycle: from `ldiStepCPU` (opcode `LDI` at
PC 0) one cycle yields IR = 0x82 and PC advanced by 1 + 2 operands. -/
theorem claim_C1_witness :
    ldiStepCPUAfter.IR = 0x82 ∧
    (sets_pc 0x82 = 0 → ldiStepCPUAfter.PC = ldiStepCPU.PC + 1 + num_ops 0x82) ∧
    (sets_pc 0x82 = 1 → ∃ t, execPhase { ldiStepCPU with IR := 0x82 } =
      .ok (t, []) ∧ ldiStepCPUAfter.PC = t.PC) :=
  claim_C1 ldiStepCPU ldiStepCPUAfter [] 0x82 (by decide) (by decide)

/-- One unrolling of the run loop on a running machine with a successful
cycle. -/
theorem runLoop_step (fuel : Nat) (s s1 : CPU) (out : List OutputEvent)
    (hrun : Int.land s.FL FLAG_RUNNING = FLAG_RUNNING)
    (hc : cycle s = .ok (s1, out)) :
    runLoop (fuel + 1) s =
      match runLoop fuel s1 with
      | .error e => .error e
      | .ok Option.none => .ok Option.none
      | .ok (some (s2, out2)) => .ok (some (s2, out ++ out2)) := by
  simp only [runLoop]
  rw [if_pos hrun, hc]

/-- A cycle whose fetch returns `c` and whose execute phase succeeds is the
conditional automatic advance applied to the execute result. -/
theorem cycle_ok_of_exec (s : CPU) (c : Int) (s2 : CPU) (out : List OutputEvent)
    (hc : s.ram.read_byte s.PC = .ok c)
    (hex : execPhase { s with IR := c } = .ok (s2, out)) :
    cycle s = if sets_pc c = 0
      then .ok ({ s2 with PC := s2.PC + (1 + num_ops c) }, out)
      else .ok (s2, out) := by
  rw [cycle_ok_fetch s c hc, hex]

/-- C2 (amended): an opcode byte mapped in neither dispatch table, fetched
at a valid PC, makes `run()` report the opcode and PC, halt via `HLT`, and
return normally — provided the opcode's ALU bit is clear, or both operand
fetches at PC+1 and PC+2 are in bounds.  (The unamended claim fails when an
ALU-bit opcode sits within two bytes of the end of memory; see the
counterexample.) -/
theorem claim_C2_amended (s : CPU) (c : Int) (fuel : Nat)
    (hc : s.ram.read_byte s.PC = .ok c)
    (h0 : dispatch0 c = none) (h2 : dispatch2 c = none)
    (hrun : Int.land s.FL FLAG_RUNNING = FLAG_RUNNING)
    (hFL0 : 0 ≤ s.FL) (hFL1 : s.FL < 256)
    (hedge : use_alu c = 0 ∨ s.PC + 2 < (s.ram.size : Int))
    (hfuel : 1 ≤ fuel) :
    ∃ s1 out, runLoop fuel s = .ok (some (s1, out)) ∧
      (out = [OutputEvent.unknownInstr c s.PC] ∨
        out = [OutputEvent.unknownALU c s.PC]) ∧
      Int.land s1.FL FLAG_RUNNING = 0 := by
  obtain ⟨k, rfl⟩ : ∃ k, fuel = k + 1 := ⟨fuel - 1, by omega⟩
  have hhalt : Int.land (Int.land s.FL (Int.lnot FLAG_RUNNING)) FLAG_RUNNING = 0 :=
    land_lnot128_not_running s.FL hFL0 hFL1
  have hnrun : ¬ Int.land (Int.land s.FL (Int.lnot FLAG_RUNNING)) FLAG_RUNNING
      = FLAG_RUNNING := by
    rw [hhalt]; decide
  have hex : ∃ ev, (ev = OutputEvent.unknownInstr c s.PC ∨
      ev = OutputEvent.unknownALU c s.PC) ∧
      execPhase { s with IR := c } = .ok (({ s with IR := c }).HLT, [ev]) := by
    by_cases halu : use_alu c = 0
    · exact ⟨_, Or.inl rfl, execPhase_unknown_nonalu { s with IR := c } h0 halu⟩
    · rcases hedge with h | hbound
      · exact absurd h halu
      · have hPC0 := (Memory.read_byte_ok_bounds _ _ _ hc).1
        have hr1 := Memory.read_byte_ok_of s.ram (s.PC + 1) (by omega) (by omega)
        have hr2 := Memory.read_byte_ok_of s.ram (s.PC + 2) (by omega) (by omega)
        exact ⟨_, Or.inr rfl,
          execPhase_unknown_alu { s with IR := c } _ _ h2 halu hr1 hr2⟩
  obtain ⟨ev, hev, hexec⟩ := hex
  have hcy := cycle_ok_of_exec s c _ [ev] hc hexec
  by_cases hsp : sets_pc c = 0
  · rw [if_pos hsp] at hcy
    refine ⟨{ CPU.HLT { s with IR := c } with
        PC := (CPU.HLT { s with IR := c }).PC + (1 + num_ops c) }, [ev], ?_,
      by rcases hev with h | h <;> simp [h], hhalt⟩
    rw [runLoop_step k s _ [ev] hrun hcy, runLoop_halted k _ hnrun]
    rfl
  · rw [if_neg hsp] at hcy
    refine ⟨CPU.HLT { s with IR := c }, [ev], ?_,
      by rcases hev with h | h <;> simp [h], hhalt⟩
    rw [runLoop_step k s _ [ev] hrun hcy, runLoop_halted k _ hnrun]
    rfl

/-- Witness for C2 (amended) at a concrete input: the unmapped opcode byte 0
at PC 0 of `spZeroCPU` makes one loop iteration report it and halt. -/
theorem claim_C2_amended_witness :
    ∃ s1 out, runLoop 1 spZeroCPU = .ok (some (s1, out)) ∧
      (out = [OutputEvent.unknownInstr 0 spZeroCPU.PC] ∨
        out = [OutputEvent.unknownALU 0 spZeroCPU.PC]) ∧
      Int.land s1.FL FLAG_RUNNING = 0 :=
  claim_C2_amended spZeroCPU 0 1 (by decide) rfl rfl (by decide)
    (by decide) (by decide) (Or.inl (by decide)) (by decide)

/-- Counterexample to C2 as stated: opcode 0x25 is mapped in neither
dispatch table and its ALU bit (bit 5) is set; a run that reaches it at the
valid PC 255 (via `LDI R0,255; JMP R0`) raises the out-of-bounds
`ReferenceError` from the operand fetch at address 256 to the caller of
`run()` — the machine does not report-and-halt. -/
theorem claim_C2_counterexample :
    (dispatch0 0x25).isNone = true ∧ (dispatch2 0x25).isNone = true ∧
    use_alu 0x25 = 1 ∧
    aluEdgeCPU.map (runFuel 10) =
      some (.error (.ReferenceError "Out of bounds memory reference")) := by
  decide

/-- C3: on a `GuardedMemory` with a valid address `a`, writing a byte value
`v ∈ [0,255]` succeeds and reading `a` back returns `v`; writing any integer
outside `[0,255]` fails with the `InvalidByteValue` error kind (the
`TypeError "Data must be an 8-bit number"`), producing no new memory state —
every cell is untouched by the failed write. -/
theorem claim_C3 (m : Memory) (hlen : m.internal_memory.length = m.size)
    (a : Int) (ha0 : 0 ≤ a) (ha1 : a < (m.size : Int)) (v : Int) :
    (0 ≤ v → v ≤ 255 →
      ∃ m', m.write_byte a v = .ok m' ∧ m'.read_byte a = .ok v) ∧
    ((v < 0 ∨ 255 < v) →
      m.write_byte a v = .error (.TypeError "Data must be an 8-bit number")) := by
  constructor
  · intro hv0 hv1
    have hw := Memory.write_byte_ok_of m a v ha0 ha1 hv0 hv1
    exact ⟨_, hw, Memory.write_then_read_self m _ a v hlen hw⟩
  · intro hv
    rw [Memory.write_byte_eq, if_neg (by omega)]
    rcases hv with hv | hv
    · rw [if_neg (by omega), if_pos hv]
    · rw [if_pos (by omega)]

/-- Witness for C3: on a fresh 4-byte memory, writing 7 at address 2 and
reading it back returns 7; writing 300 there fails with `InvalidByteValue`. -/
theorem claim_C3_witness :
    (∃ m', (Memory.init 4).write_byte 2 7 = .ok m' ∧ m'.read_byte 2 = .ok 7) ∧
    (Memory.init 4).write_byte 2 300 =
      .error (.TypeError "Data must be an 8-bit number") :=
  ⟨(claim_C3 (Memory.init 4) (by decide) 2 (by decide) (by decide) 7).1
      (by decide) (by decide),
    (claim_C3 (Memory.init 4) (by decide) 2 (by decide) (by decide) 300).2
      (by omega)⟩

/-- C9 (amended): at a valid address, a value whose `int()` coercion raises
`TypeError` (e.g. `None`) fails with the same `InvalidByteValue` kind as a
value whose integer coercion lies outside [0, 255] (an out-of-range int or
a float whose truncation is out of range); but not every non-integral value
is rejected — a non-integral float is truncated by `int()` and, when the
truncation is in range, the truncated value is stored. -/
theorem claim_C9_amended (m : Memory) (hlen : m.internal_memory.length = m.size)
    (a : Int) (ha0 : 0 ≤ a) (ha1 : a < (m.size : Int)) :
    (m.write_byte_py a .none =
      .error (.TypeError "Data must be an 8-bit number")) ∧
    (∀ n : Int, (n < 0 ∨ 255 < n) → m.write_byte_py a (.int n) =
      .error (.TypeError "Data must be an 8-bit number")) ∧
    (∀ i : Int, (i < 0 ∨ 255 < i) → m.write_byte_py a (.float i true) =
      .error (.TypeError "Data must be an 8-bit number")) ∧
    (∀ i : Int, 0 ≤ i → i ≤ 255 →
      ∃ m', m.write_byte_py a (.float i true) = .ok m' ∧
        m'.read_byte a = .ok i) := by
  refine ⟨?_, ?_, ?_, ?_⟩
  · unfold Memory.write_byte_py
    rw [if_neg (by omega)]
    rfl
  · intro n hn
    unfold Memory.write_byte_py
    rw [if_neg (by omega)]
    simp only [pyInt]
    rcases hn with h | h
    · rw [if_neg (by omega), if_pos h]
    · rw [if_pos (by omega)]
  · intro i hi
    unfold Memory.write_byte_py
    rw [if_neg (by omega)]
    simp only [pyInt]
    rcases hi with h | h
    · rw [if_neg (by omega), if_pos h]
    · rw [if_pos (by omega)]
  · intro i hi0 hi1
    have hw : m.write_byte_py a (.float i true) =
        .ok { m with internal_memory := m.internal_memory.set a.toNat i } := by
      unfold Memory.write_byte_py
      rw [if_neg (by omega)]
      simp only [pyInt]
      rw [if_neg (by omega), if_neg (by omega)]
    refine ⟨_, hw, ?_⟩
    rw [Memory.read_byte_ok_of _ _ ha0 (by simpa using ha1)]
    have ha : a.toNat < m.internal_memory.length := by omega
    rw [listGetD_set_self _ _ _ ha]

/-- Witness for C9 (amended) at concrete inputs on a fresh 4-byte memory:
`None`, the integer 300, and the float 300.5 all fail with
`InvalidByteValue`, while the float 3.5 (truncation 3) is stored and read
back as 3. -/
theorem claim_C9_amended_witness :
    ((Memory.init 4).write_byte_py 0 PyVal.none =
      .error (.TypeError "Data must be an 8-bit number")) ∧
    ((Memory.init 4).write_byte_py 0 (.int 300) =
      .error (.TypeError "Data must be an 8-bit number")) ∧
    ((Memory.init 4).write_byte_py 0 (.float 300 true) =
      .error (.TypeError "Data must be an 8-bit number")) ∧
    (∃ m', (Memory.init 4).write_byte_py 0 (.float 3 true) = .ok m' ∧
      m'.read_byte 0 = .ok 3) := by
  obtain ⟨h1, h2, h3, h4⟩ :=
    claim_C9_amended (Memory.init 4) (by decide) 0 (by decide) (by decide)
  exact ⟨h1, h2 300 (by omega), h3 300 (by omega), h4 3 (by omega) (by omega)⟩

/-- Counterexample to C9 as stated: the non-integral float 3.5 is a value
that is neither an integer nor representable as one, yet `write` does not
reject it at all — `int()` truncates it to 3 and the write succeeds,
storing 3 — contradicting "every non-integral or non-representable value
is rejected rather than stored". -/
theorem claim_C9_counterexample :
    (Memory.init 4).write_byte_py 0 (.float 3 true) =
      .ok { size := 4, internal_memory := [3, 0, 0, 0] } ∧
    isInvalidByteErr ((Memory.init 4).write_byte_py 0 (.float 3 true)) = false := by
  decide

/-- C4: `CMP` on two readable registers succeeds; afterwards EQUAL holds iff
`regs[a] = regs[b]`, LESS iff `<`, GREATER iff `>`; the low three FL bits
hold exactly one set flag (each bit recomputed, not accumulated), and all
other FL bits — in particular RUNNING — are unchanged (`FL / 8` is the
integer formed by bits 3 and above). -/
theorem claim_C4 (s : CPU) (a b va vb : Int)
    (hva : s.gp_registers.read_byte a = .ok va)
    (hvb : s.gp_registers.read_byte b = .ok vb)
    (hFL0 : 0 ≤ s.FL) (hFL1 : s.FL < 256) :
    ∃ s1, s.CMP a b = .ok s1 ∧
      (Int.land s1.FL FLAG_EQUAL = FLAG_EQUAL ↔ va = vb) ∧
      (Int.land s1.FL FLAG_LESS = FLAG_LESS ↔ va < vb) ∧
      (Int.land s1.FL FLAG_GREATER = FLAG_GREATER ↔ va > vb) ∧
      (s1.FL % 8 = 1 ∨ s1.FL % 8 = 2 ∨ s1.FL % 8 = 4) ∧
      s1.FL / 8 = s.FL / 8 := by
  unfold CPU.CMP
  rw [hva, hvb]
  refine ⟨_, rfl, ?_⟩
  simp only [FLAG_EQUAL, FLAG_LESS, FLAG_GREATER]
  rcases lt_trichotomy va vb with hlt | heqv | hgt
  · rw [if_neg (by omega : ¬ va = vb), if_pos hlt, if_neg (by omega : ¬ va > vb)]
    have e1 := (flagOps s.FL hFL0 hFL1).2.1
    set y1 := Int.land s.FL (Int.lnot 1) with hy1
    have e3 := (flagOps y1 (by omega) (by omega)).2.2.1
    set y2 := Int.lor y1 4 with hy2
    have e5 := (flagOps y2 (by omega) (by omega)).2.2.2.2.2.1
    set y3 := Int.land y2 (Int.lnot 2) with hy3
    obtain ⟨-, -, -, -, -, -, r1, r4, r2, -, -, -⟩ :=
      flagOps y3 (by omega) (by omega)
    rw [r1, r4, r2]
    omega
  · rw [if_pos heqv, if_neg (by omega : ¬ va < vb), if_neg (by omega : ¬ va > vb)]
    have e1 := (flagOps s.FL hFL0 hFL1).1
    set y1 := Int.lor s.FL 1 with hy1
    have e3 := (flagOps y1 (by omega) (by omega)).2.2.2.1
    set y2 := Int.land y1 (Int.lnot 4) with hy2
    have e5 := (flagOps y2 (by omega) (by omega)).2.2.2.2.2.1
    set y3 := Int.land y2 (Int.lnot 2) with hy3
    obtain ⟨-, -, -, -, -, -, r1, r4, r2, -, -, -⟩ :=
      flagOps y3 (by omega) (by omega)
    rw [r1, r4, r2]
    omega
  · rw [if_neg (by omega : ¬ va = vb), if_neg (by omega : ¬ va < vb), if_pos hgt]
    have e1 := (flagOps s.FL hFL0 hFL1).2.1
    set y1 := Int.land s.FL (Int.lnot 1) with hy1
    have e3 := (flagOps y1 (by omega) (by omega)).2.2.2.1
    set y2 := Int.land y1 (Int.lnot 4) with hy2
    have e5 := (flagOps y2 (by omega) (by omega)).2.2.2.2.1
    set y3 := Int.lor y2 2 with hy3
    obtain ⟨-, -, -, -, -, -, r1, r4, r2, -, -, -⟩ :=
      flagOps y3 (by omega) (by omega)
    rw [r1, r4, r2]
    omega

/-- Witness for C4 at concrete registers of `cmpCPU` (FL = 0x80): comparing
R0 = 5 with R1 = 5 must set exactly EQUAL and keep the high bits. -/
theorem claim_C4_witness :
    ∃ s1, cmpCPU.CMP 0 1 = .ok s1 ∧
      (Int.land s1.FL FLAG_EQUAL = FLAG_EQUAL ↔ (5 : Int) = 5) ∧
      (Int.land s1.FL FLAG_LESS = FLAG_LESS ↔ (5 : Int) < 5) ∧
      (Int.land s1.FL FLAG_GREATER = FLAG_GREATER ↔ (5 : Int) > 5) ∧
      (s1.FL % 8 = 1 ∨ s1.FL % 8 = 2 ∨ s1.FL % 8 = 4) ∧
      s1.FL / 8 = cmpCPU.FL / 8 :=
  claim_C4 cmpCPU 0 1 5 5 (by decide) (by decide) (by decide) (by decide)

/-- C5: with the operand byte at PC+1 naming register `r` whose value is
`v`: when the EQUAL flag is set, `JEQ` assigns PC := v while `JNE` advances
PC by exactly 2; when EQUAL is clear the roles are exactly swapped. -/
theorem claim_C5 (s : CPU) (r v : Int)
    (hr : s.ram.read_byte (s.PC + 1) = .ok r)
    (hv : s.gp_registers.read_byte r = .ok v) :
    (Int.land s.FL FLAG_EQUAL = FLAG_EQUAL →
      s.JEQ = .ok { s with PC := v } ∧
      s.JNE = .ok { s with PC := s.PC + 2 }) ∧
    (Int.land s.FL FLAG_EQUAL = 0 →
      s.JEQ = .ok { s with PC := s.PC + 2 } ∧
      s.JNE = .ok { s with PC := v }) := by
  have hjmp : s.JMP = .ok { s with PC := v } := by
    unfold CPU.JMP
    simp only [hr, hv]
  constructor
  · intro hfl
    constructor
    · unfold CPU.JEQ
      rw [if_pos hfl]
      exact hjmp
    · unfold CPU.JNE
      rw [if_neg (by simp only [FLAG_EQUAL] at hfl ⊢; omega)]
  · intro hfl
    constructor
    · unfold CPU.JEQ
      rw [if_neg (by simp only [FLAG_EQUAL] at hfl ⊢; omega)]
    · unfold CPU.JNE
      rw [if_pos (by simp only [FLAG_EQUAL] at hfl ⊢; omega)]
      exact hjmp

/-- Witness for C5 at `jeqCPU` (EQUAL set, target register value 99, PC 10)
and at the same machine with EQUAL cleared. -/
theorem claim_C5_witness :
    (jeqCPU.JEQ = .ok { jeqCPU with PC := 99 } ∧
      jeqCPU.JNE = .ok { jeqCPU with PC := jeqCPU.PC + 2 }) ∧
    (({ jeqCPU with FL := 128 } : CPU).JEQ =
        .ok { { jeqCPU with FL := 128 } with PC := jeqCPU.PC + 2 } ∧
      ({ jeqCPU with FL := 128 } : CPU).JNE =
        .ok { { jeqCPU with FL := 128 } with PC := 99 }) :=
  ⟨(claim_C5 jeqCPU 0 99 (by decide) (by decide)).1 (by decide),
    (claim_C5 { jeqCPU with FL := 128 } 0 99 (by decide) (by decide)).2
      (by decide)⟩

/-- C6: `MUL` writes `regs[a] * regs[b]` back through the range-checked
register write: a product above 255 fails with `InvalidByteValue` (never a
silent wraparound), and an in-range product is stored in `regs[a]`. -/
theorem claim_C6 (s : CPU) (a b va vb : Int)
    (hlen : s.gp_registers.internal_memory.length = s.gp_registers.size)
    (hva : s.gp_registers.read_byte a = .ok va)
    (hvb : s.gp_registers.read_byte b = .ok vb) :
    (255 < va * vb →
      s.MUL a b = .error (.TypeError "Data must be an 8-bit number")) ∧
    (0 ≤ va * vb → va * vb ≤ 255 →
      ∃ s1, s.MUL a b = .ok s1 ∧
        s1.gp_registers.read_byte a = .ok (va * vb)) := by
  obtain ⟨ha0, ha1⟩ := Memory.read_byte_ok_bounds _ _ _ hva
  constructor
  · intro hover
    unfold CPU.MUL
    have hw : s.gp_registers.write_byte a (va * vb) =
        .error (.TypeError "Data must be an 8-bit number") := by
      rw [Memory.write_byte_eq, if_neg (by omega), if_pos (by omega)]
    simp only [hva, hvb, hw]
  · intro h0 h1
    unfold CPU.MUL
    have hw := Memory.write_byte_ok_of s.gp_registers a (va * vb) ha0 ha1 h0 h1
    simp only [hva, hvb, hw]
    exact ⟨_, rfl, Memory.write_then_read_self _ _ _ _ hlen hw⟩

/-- Witness for C6 at `mulCPU`: R0*R1 = 16*16 = 256 fails with
`InvalidByteValue`; R2*R3 = 3*7 = 21 is stored in R2. -/
theorem claim_C6_witness :
    mulCPU.MUL 0 1 = .error (.TypeError "Data must be an 8-bit number") ∧
    ∃ s1, mulCPU.MUL 2 3 = .ok s1 ∧
      s1.gp_registers.read_byte 2 = .ok (3 * 7) :=
  ⟨(claim_C6 mulCPU 0 1 16 16 (by decide) (by decide) (by decide)).1 (by omega),
    (claim_C6 mulCPU 2 3 3 7 (by decide) (by decide) (by decide)).2
      (by omega) (by omega)⟩

/-- Bundled successful-write lemma: existence of the new memory together
with read-back, size/length preservation, and frame conditions. -/
theorem Memory.write_byte_ok_ex (m : Memory) (a d : Int)
    (hlen : m.internal_memory.length = m.size)
    (h0 : 0 ≤ a) (h1 : a < (m.size : Int)) (h2 : 0 ≤ d) (h3 : d ≤ 255) :
    ∃ m', m.write_byte a d = .ok m' ∧ m'.read_byte a = .ok d ∧
      m'.size = m.size ∧
      m'.internal_memory.length = m.internal_memory.length ∧
      (∀ b, 0 ≤ b → a ≠ b → m'.read_byte b = m.read_byte b) := by
  have hw := Memory.write_byte_ok_of m a d h0 h1 h2 h3
  exact ⟨_, hw, Memory.write_then_read_self m _ a d hlen hw,
    (Memory.write_byte_ok_size m _ a d hw).1,
    (Memory.write_byte_ok_size m _ a d hw).2,
    fun b hb hab => Memory.write_then_read_other m _ a d b hw hb hab⟩

/-- C10: `POP` with operand register 7 (the SP itself) and popped byte
`p < 255` leaves register 7 holding `p + 1`, not `p` — the popped value is
immediately overwritten by the SP increment. -/
theorem claim_C10 (s : CPU) (sp p : Int)
    (hsz : s.gp_registers.size = 8)
    (hlen : s.gp_registers.internal_memory.length = 8)
    (hr : s.ram.read_byte (s.PC + 1) = .ok 7)
    (hsp : s.get_SP = .ok sp)
    (hp : s.ram.read_byte sp = .ok p)
    (hp0 : 0 ≤ p) (hp255 : p < 255) :
    ∃ s1, s.POP = .ok s1 ∧
      s1.gp_registers.read_byte 7 = .ok (p + 1) ∧
      s1.gp_registers.read_byte 7 ≠ .ok p := by
  obtain ⟨M2, hw1, hr2, hs2, hl2, -⟩ :=
    Memory.write_byte_ok_ex s.gp_registers 7 p (by omega) (by omega)
      (by omega) hp0 (by omega)
  obtain ⟨M3, hw2, hr3, -, -, -⟩ :=
    Memory.write_byte_ok_ex M2 7 (p + 1) (by omega) (by omega)
      (by omega) (by omega) (by omega)
  unfold CPU.POP CPU.get_SP CPU.set_SP
  unfold CPU.get_SP at hsp
  simp only [hr, hsp, hp, hw1, hr2, hw2]
  refine ⟨_, rfl, hr3, ?_⟩
  rw [hr3]
  simp only [ne_eq, Except.ok.injEq]
  omega

/-- Witness for C10 at `popIntoSPCPU`: SP = 0xF3, popped byte 9; after the
POP, register 7 holds 10. -/
theorem claim_C10_witness :
    ∃ s1, popIntoSPCPU.POP = .ok s1 ∧
      s1.gp_registers.read_byte 7 = .ok (9 + 1) ∧
      s1.gp_registers.read_byte 7 ≠ .ok 9 :=
  claim_C10 popIntoSPCPU 0xF3 9 (by decide) (by decide) (by decide) (by decide)
    (by decide) (by decide) (by decide)

/-- C8 (amended): SP leaving `[0, 256)` surfaces as the `InvalidByteValue`
(`TypeError`) error from the range-checked write of the new SP value into
register 7 — not as an `OutOfBounds` memory error; no separate stack bounds
are enforced.  `PUSH` with SP = 0 fails writing SP := -1; `POP` (into a
register other than 7) with SP = 255 fails writing SP := 256. -/
theorem claim_C8_amended (s : CPU) (r d : Int)
    (hsz : s.gp_registers.size = 8)
    (hlen : s.gp_registers.internal_memory.length = 8) :
    (s.get_SP = .ok 0 →
      s.PUSH = .error (.TypeError "Data must be an 8-bit number")) ∧
    (s.get_SP = .ok 255 → s.ram.read_byte (s.PC + 1) = .ok r →
      0 ≤ r → r < 8 → r ≠ 7 → s.ram.read_byte 255 = .ok d →
      0 ≤ d → d ≤ 255 →
      s.POP = .error (.TypeError "Data must be an 8-bit number")) := by
  constructor
  · intro hsp0
    have hset : s.set_SP (0 - 1) =
        .error (.TypeError "Data must be an 8-bit number") := by
      unfold CPU.set_SP
      have hw : s.gp_registers.write_byte 7 (0 - 1) =
          .error (.TypeError "Data must be an 8-bit number") := by
        rw [Memory.write_byte_eq, if_neg (by omega), if_neg (by omega),
          if_pos (by omega)]
      simp only [hw]
    unfold CPU.PUSH
    simp only [hsp0, hset]
  · intro hsp hr hr0 hr8 hr7 hd hd0 hd255
    obtain ⟨M2, hw1, -, hs2, -, ho2⟩ :=
      Memory.write_byte_ok_ex s.gp_registers r d (by omega) hr0 (by omega)
        hd0 hd255
    have hg2 : M2.read_byte 7 = .ok 255 := by
      rw [ho2 7 (by omega) hr7]
      exact hsp
    have hw2 : M2.write_byte 7 (255 + 1) =
        .error (.TypeError "Data must be an 8-bit number") := by
      rw [Memory.write_byte_eq, if_neg (by omega), if_pos (by omega)]
    unfold CPU.POP CPU.get_SP CPU.set_SP
    unfold CPU.get_SP at hsp
    simp only [hr, hsp, hd, hw1, hg2, hw2]

/-- Witness for C8 (amended): `PUSH` on `spZeroCPU` (SP = 0) and `POP` on
`spTopCPU` (SP = 255, operand register 0) both fail with `InvalidByteValue`. -/
theorem claim_C8_amended_witness :
    spZeroCPU.PUSH = .error (.TypeError "Data must be an 8-bit number") ∧
    spTopCPU.POP = .error (.TypeError "Data must be an 8-bit number") :=
  ⟨(claim_C8_amended spZeroCPU 0 0 (by decide) (by decide)).1 (by decide),
    (claim_C8_amended spTopCPU 0 0 (by decide) (by decide)).2 (by decide)
      (by decide) (by decide) (by decide) (by decide) (by decide) (by decide)
      (by decide)⟩

/-- Counterexample to C8 as stated: `PUSH` with SP = 0 fails with the
`InvalidByteValue` (`TypeError`) kind, not the claimed `OutOfBounds`
(`ReferenceError`) kind. -/
theorem claim_C8_counterexample :
    spZeroCPU.PUSH = .error (.TypeError "Data must be an 8-bit number") ∧
    isOutOfBoundsErr spZeroCPU.PUSH = false := by
  decide

/-- General stack round-trip: from any state with SP ∈ [1, 255], a `PUSH`
of register `rA` (≠ 7) holding `v`, followed by the run loop's 2-byte
advance, followed by a `POP` whose operand byte names register `rB` (≠ 7),
stores `v` in `rB` and restores SP. -/
theorem push_pop_general (s : CPU) (rA rB v sp : Int)
    (hsz : s.gp_registers.size = 8)
    (hlen : s.gp_registers.internal_memory.length = 8)
    (hrlen : s.ram.internal_memory.length = s.ram.size)
    (hsp : s.get_SP = .ok sp) (hsp1 : 1 ≤ sp) (hsp255 : sp ≤ 255)
    (hspram : sp ≤ (s.ram.size : Int))
    (hrA : s.ram.read_byte (s.PC + 1) = .ok rA) (hrA7 : rA ≠ 7)
    (hv : s.gp_registers.read_byte rA = .ok v) (hv0 : 0 ≤ v) (hv255 : v ≤ 255)
    (hrB : s.ram.read_byte (s.PC + 3) = .ok rB) (hnc : sp - 1 ≠ s.PC + 3)
    (hrB0 : 0 ≤ rB) (hrB8 : rB < 8) (hrB7 : rB ≠ 7) :
    ∃ s1 s2, s.PUSH = .ok s1 ∧
      CPU.POP { s1 with PC := s1.PC + 2 } = .ok s2 ∧
      s2.gp_registers.read_byte rB = .ok v ∧ s2.get_SP = .ok sp := by
  obtain ⟨hrA0, -⟩ := Memory.read_byte_ok_bounds _ _ _ hv
  obtain ⟨hPC3a, -⟩ := Memory.read_byte_ok_bounds _ _ _ hrB
  obtain ⟨R1, hw1, hR1r7, hR1sz, hR1len, hR1o⟩ :=
    Memory.write_byte_ok_ex s.gp_registers 7 (sp - 1) (by omega) (by omega)
      (by omega) (by omega) (by omega)
  have hvA : R1.read_byte rA = .ok v := by
    rw [hR1o rA hrA0 (by omega)]
    exact hv
  obtain ⟨Ram1, hwr, htop, hRam1sz, hRam1len, hRam1o⟩ :=
    Memory.write_byte_ok_ex s.ram (sp - 1) v hrlen (by omega) (by omega)
      hv0 hv255
  have hpush : s.PUSH = .ok { s with gp_registers := R1, ram := Ram1 } := by
    unfold CPU.PUSH CPU.get_SP CPU.set_SP
    unfold CPU.get_SP at hsp
    simp only [hsp, hw1, hrA, hvA, hR1r7, hwr]
  have hrB2 : Ram1.read_byte (s.PC + 2 + 1) = .ok rB := by
    rw [show s.PC + 2 + 1 = s.PC + 3 by omega, hRam1o (s.PC + 3) hPC3a hnc]
    exact hrB
  obtain ⟨R2, hw2, hR2rB, hR2sz, hR2len, hR2o⟩ :=
    Memory.write_byte_ok_ex R1 rB v (by omega) hrB0 (by omega) hv0 hv255
  have hR2r7 : R2.read_byte 7 = .ok (sp - 1) := by
    rw [hR2o 7 (by omega) hrB7]
    exact hR1r7
  obtain ⟨R3, hw3, hR3r7, -, -, hR3o⟩ :=
    Memory.write_byte_ok_ex R2 7 (sp - 1 + 1) (by omega) (by omega) (by omega)
      (by omega) (by omega)
  have hpop :
      CPU.POP (CPU.mk Ram1 R1 (s.PC + 2) s.IR s.FL) =
        .ok (CPU.mk Ram1 R3 (s.PC + 2) s.IR s.FL) := by
    unfold CPU.POP CPU.get_SP CPU.set_SP
    simp only [hrB2, hR1r7, htop, hw2, hR2r7, hw3]
  have hspfix : sp - 1 + 1 = sp := by omega
  rw [hspfix] at hR3r7
  have hreadB : R3.read_byte rB = .ok v := by
    rw [hR3o rB hrB0 (by omega)]
    exact hR2rB
  exact ⟨_, _, hpush, hpop, hreadB, hR3r7⟩

/-- The flags byte 0x80 with its RUNNING bit cleared is 0. -/
theorem land128_lnot128 : Int.land (128 : Int) (Int.lnot 128) = 0 := by
  obtain ⟨-, -, -, -, -, -, -, -, -, -, -, f12⟩ :=
    flagOps 128 (by omega) (by omega)
  rw [f12]
  decide

set_option maxRecDepth 100000 in
/-- Cycle 4 of the stack program: the unmapped opcode byte 0 at PC 7 is
reported, `HLT` clears RUNNING, and PC advances by 1. -/
theorem stack_cycle4 :
    cycle stackS3 = .ok (stackS4, [OutputEvent.unknownInstr 0 7]) := by
  have hhlt : CPU.HLT { stackS3 with IR := 0 } =
      { stackS3 with IR := 0, FL := 0 } := by
    unfold CPU.HLT
    show ({ stackS3 with IR := 0, FL := Int.land (128 : Int) (Int.lnot 128) } :
      CPU) = _
    rw [land128_lnot128]
  rw [cycle_ok_fetch stackS3 0 (by decide),
    execPhase_unknown_nonalu { stackS3 with IR := 0 } rfl (by decide), hhlt]
  rfl

set_option maxRecDepth 100000 in
/-- Running the loaded stack program `LDI R0,42; PUSH R0; POP R1` to its
halt leaves R1 = 42 and SP = 0xF4. -/
theorem stack_run_concrete :
    CPU.init.loadBytes stackProg = .ok stackS0 ∧
    runFuel 10 stackS0 = .ok (some (stackS4, [OutputEvent.unknownInstr 0 7])) ∧
    stackS4.gp_registers.read_byte 1 = .ok 42 ∧
    stackS4.get_SP = .ok 0xF4 := by
  refine ⟨by decide, ?_, by decide, by decide⟩
  have h1 : cycle stackR0 = .ok (stackS1, []) := by decide
  have h2 : cycle stackS1 = .ok (stackS2, []) := by decide
  have h3 : cycle stackS2 = .ok (stackS3, []) := by decide
  have r6 : runLoop 6 stackS4 = .ok (some (stackS4, [])) :=
    runLoop_halted 6 _ (by decide)
  have r7 : runLoop 7 stackS3 =
      .ok (some (stackS4, [OutputEvent.unknownInstr 0 7])) := by
    rw [show (7 : Nat) = 6 + 1 from rfl,
      runLoop_step 6 _ _ _ (by decide) stack_cycle4, r6]
    rfl
  have r8 : runLoop 8 stackS2 =
      .ok (some (stackS4, [OutputEvent.unknownInstr 0 7])) := by
    rw [show (8 : Nat) = 7 + 1 from rfl, runLoop_step 7 _ _ _ (by decide) h3, r7]
    rfl
  have r9 : runLoop 9 stackS1 =
      .ok (some (stackS4, [OutputEvent.unknownInstr 0 7])) := by
    rw [show (9 : Nat) = 8 + 1 from rfl, runLoop_step 8 _ _ _ (by decide) h2, r8]
    rfl
  have r10 : runLoop 10 stackR0 =
      .ok (some (stackS4, [OutputEvent.unknownInstr 0 7])) := by
    rw [show (10 : Nat) = 9 + 1 from rfl, runLoop_step 9 _ _ _ (by decide) h1, r9]
    rfl
  unfold runFuel
  rw [show ({ stackS0 with FL := Int.lor stackS0.FL FLAG_RUNNING } : CPU)
    = stackR0 from by decide]
  exact r10

/-- C7: running `LDI R0,42; PUSH R0; POP R1` from the initial machine state
leaves R1 = 42 and SP restored to its pre-push value 0xF4; and in general a
`PUSH` of a (non-SP) register holding `v` with SP ∈ [1, 255], followed by
the loop's 2-byte advance and a `POP` into another (non-SP) register whose
operand byte the push did not overwrite, stores `v` there and restores SP. -/
theorem claim_C7 :
    (∃ s0 sf outs, CPU.init.loadBytes stackProg = .ok s0 ∧
      runFuel 10 s0 = .ok (some (sf, outs)) ∧
      sf.gp_registers.read_byte 1 = .ok 42 ∧ sf.get_SP = .ok 0xF4) ∧
    (∀ (s : CPU) (rA rB v sp : Int),
      s.gp_registers.size = 8 →
      s.gp_registers.internal_memory.length = 8 →
      s.ram.internal_memory.length = s.ram.size →
      s.get_SP = .ok sp → 1 ≤ sp → sp ≤ 255 → sp ≤ (s.ram.size : Int) →
      s.ram.read_byte (s.PC + 1) = .ok rA → rA ≠ 7 →
      s.gp_registers.read_byte rA = .ok v → 0 ≤ v → v ≤ 255 →
      s.ram.read_byte (s.PC + 3) = .ok rB → sp - 1 ≠ s.PC + 3 →
      0 ≤ rB → rB < 8 → rB ≠ 7 →
      ∃ s1 s2, s.PUSH = .ok s1 ∧
        CPU.POP { s1 with PC := s1.PC + 2 } = .ok s2 ∧
        s2.gp_registers.read_byte rB = .ok v ∧ s2.get_SP = .ok sp) := by
  constructor
  · obtain ⟨hl, hr, h1, h2⟩ := stack_run_concrete
    exact ⟨stackS0, stackS4, [OutputEvent.unknownInstr 0 7], hl, hr, h1, h2⟩
  · intro s rA rB v sp hsz hlen hrlen hsp hsp1 hsp255 hspram hrA hrA7 hv hv0
      hv255 hrB hnc hrB0 hrB8 hrB7
    exact push_pop_general s rA rB v sp hsz hlen hrlen hsp hsp1 hsp255 hspram
      hrA hrA7 hv hv0 hv255 hrB hnc hrB0 hrB8 hrB7

set_option maxRecDepth 100000 in
/-- Witness for C7's general part at `pushPopCPU` (R0 = 42, SP = 0xF4,
operand bytes name R0 then R1). -/
theorem claim_C7_witness :
    ∃ s1 s2, pushPopCPU.PUSH = .ok s1 ∧
      CPU.POP { s1 with PC := s1.PC + 2 } = .ok s2 ∧
      s2.gp_registers.read_byte 1 = .ok 42 ∧ s2.get_SP = .ok 0xF4 :=
  claim_C7.2 pushPopCPU 0 1 42 0xF4 (by decide) (by decide) (by decide)
    (by decide) (by decide) (by decide) (by decide) (by decide) (by decide)
    (by decide) (by decide) (by decide) (by decide) (by decide) (by decide)
    (by decide) (by decide)
